import Mathlib

/-!
Verification of the PMI extraction pipeline (streamlit_pmi_extraction.py,
extraction_config.py) and the datasheet RAG chat page
(streamlit_datasheet_rag.py).

Shallow embedding conventions:
* Python strings are `List Char` (`Str`); Python's ASCII-relevant
  `str.upper` / `str.lower` / `str.strip` are mapped char-wise with Lean's
  `Char.toUpper` / `Char.toLower` / whitespace trimming.
* Python `needle in haystack` is list infix (`<:+:`).
* Python floats are modelled as rationals (`ℚ`); the numeric literals the
  classifiers parse are exact decimals, so `/ 25.4` and the band
  comparisons are faithful away from rounding-critical inputs.
* `re` regular expressions are embedded by a small backtracking engine
  (`RE`, `reRun`) with Python's ordered alternation, greedy quantifiers,
  capture groups and word boundaries; each pattern of the source is
  transliterated into an `RE` term.
* Python sets are `Finset`; `dict.get` with default is association-list
  lookup with `getD`.
-/

/-- Python strings, modelled as lists of characters. -/
abbrev Str := List Char

/-- Conversion from a Lean string literal to the model. -/
def str (s : String) : Str := s.toList

/-- Python `str.upper()` (ASCII case mapping). -/
def toUpperStr (s : Str) : Str := s.map Char.toUpper

/-- Python `str.lower()` (ASCII case mapping). -/
def toLowerStr (s : Str) : Str := s.map Char.toLower

/-- Python `str.strip()`: drop leading and trailing whitespace. -/
def pyStrip (s : Str) : Str :=
  ((s.dropWhile Char.isWhitespace).reverse.dropWhile Char.isWhitespace).reverse

/-!
## Material classifier

`classify_material` from extraction_config.py lines 84-104: upper-case the
value, then test keyword substrings in the fixed priority order
stainless (`STAINLESS`/`SS`, grades 304 then 316), aluminum (`ALUMINUM`/`AL`,
grade 6061), brass, bronze, PEEK.
-/

/-- `classify_material(value)` of extraction_config.py. -/
def classify_material (value : Str) : Option Str :=
  let v := toUpperStr value
  if str "STAINLESS" <:+: v ∨ str "SS" <:+: v then
    if str "304" <:+: v then some (str "Standard Stainless")
    else if str "316" <:+: v then some (str "Marine Grade Stainless")
    else some (str "General Stainless")
  else if str "ALUMINUM" <:+: v ∨ str "AL" <:+: v then
    if str "6061" <:+: v then some (str "Aircraft Grade Aluminum")
    else some (str "General Aluminum")
  else if str "BRASS" <:+: v then some (str "Decorative/Corrosion Resistant")
  else if str "BRONZE" <:+: v then some (str "High Strength/Corrosion Resistant")
  else if str "PEEK" <:+: v then some (str "High Performance Plastic")
  else none

/-!
## Regular-expression engine

A small backtracking matcher with Python `re` semantics for the features the
source's patterns use: ordered alternation, greedy `*` `+` `?`, single-char
classes, capture groups and the `\b` word-boundary assertion.  `reRun`
returns every way the pattern can match a prefix of the input, in Python's
backtracking priority order (alternation left first, quantifiers greedy), so
the head of the list is the match Python's engine finds.  Recursion is
structural: `reStep` recurses on the pattern and hands `star` continuations
to `next`; `reRun` ties the knot on a fuel that only `star` iterations
consume, and every starred sub-pattern of the source consumes at least one
character per iteration, so `input length + 1` fuel is always enough.
-/

/-- Regular-expression syntax: `pred` is a one-character class, `alt` is
Python's ordered alternation, `star` and `opt` are greedy, `group` is a
numbered capture group and `wb` is the zero-width `\b` assertion. -/
inductive RE where
  | eps
  | pred (p : Char → Bool)
  | seq (a b : RE)
  | alt (a b : RE)
  | star (a : RE)
  | opt (a : RE)
  | group (n : ℕ) (a : RE)
  | wb

/-- One way a pattern matches a prefix of the input: the consumed
characters, the captures `(group number, captured text)` in the order they
were completed, and the remaining input. -/
structure MRes where
  consumed : Str
  caps : List (ℕ × Str)
  rest : Str

/-- The character preceding the current position after consuming
`consumed`, for `\b`: the last consumed character, or the previous one if
nothing was consumed. -/
def lastPrev (prev : Option Char) (consumed : Str) : Option Char :=
  match consumed.getLast? with
  | some c => some c
  | none => prev

/-- Python's word characters (ASCII): letters, digits and underscore. -/
def isWordChar (c : Char) : Bool := c.isAlphanum || c == '_'

/-- Whether position between `prev` and `s` is a `\b` word boundary. -/
def atBoundary (prev : Option Char) (s : Str) : Bool :=
  (match prev with | some c => isWordChar c | none => false)
    != (match s.head? with | some c => isWordChar c | none => false)

/-- One level of the matcher: structural recursion over the pattern, with
`star` continuations delegated to `next` (which `reRun` instantiates with
one unit of fuel less).  Results are in Python's priority order. -/
def reStep (next : RE → Option Char → Str → List MRes) :
    RE → Option Char → Str → List MRes
  | .eps, _, s => [⟨[], [], s⟩]
  | .pred p, _, s =>
    match s with
    | [] => []
    | c :: rest => if p c then [⟨[c], [], rest⟩] else []
  | .seq a b, prev, s =>
    (reStep next a prev s).flatMap fun r1 =>
      (reStep next b (lastPrev prev r1.consumed) r1.rest).map fun r2 =>
        ⟨r1.consumed ++ r2.consumed, r1.caps ++ r2.caps, r2.rest⟩
  | .alt a b, prev, s => reStep next a prev s ++ reStep next b prev s
  | .star a, prev, s =>
    (((reStep next a prev s).filter fun r => !r.consumed.isEmpty).flatMap fun r1 =>
      (next (.star a) (lastPrev prev r1.consumed) r1.rest).map fun r2 =>
        ⟨r1.consumed ++ r2.consumed, r1.caps ++ r2.caps, r2.rest⟩) ++ [⟨[], [], s⟩]
  | .opt a, prev, s => reStep next a prev s ++ [⟨[], [], s⟩]
  | .group n a, prev, s =>
    (reStep next a prev s).map fun r => ⟨r.consumed, r.caps ++ [(n, r.consumed)], r.rest⟩
  | .wb, prev, s => if atBoundary prev s then [⟨[], [], s⟩] else []

/-- The matcher: all matches of `re` against a prefix of `s`, priority
ordered, with `prev` the character before the current position. -/
def reRun : ℕ → RE → Option Char → Str → List MRes
  | 0, _, _, _ => []
  | fuel + 1, re, prev, s => reStep (reRun fuel) re prev s

/-- Python's anchored match attempt at one position: the highest-priority
way `re` matches a prefix of `s`. -/
def reMatch (re : RE) (prev : Option Char) (s : Str) : Option MRes :=
  (reRun (s.length + 1) re prev s).head?

/-- One match as `finditer`/`findall` see it: full matched text and the
captures. -/
structure MatchInfo where
  full : Str
  caps : List (ℕ × Str)

/-- The text captured by group `n`, if the group participated in the match
(Python keeps the last capture when a group is set more than once). -/
def groupVal (caps : List (ℕ × Str)) (n : ℕ) : Option Str :=
  (caps.reverse.find? fun p => p.1 == n).map Prod.snd

/-- The scan loop of `finditer`/`findall`: try the pattern at each position
left to right; on a match, resume after it (an empty match is recorded and
the scan advances one character, as in Python 3.7+); otherwise advance one
character. -/
def reScanAux (re : RE) : ℕ → Option Char → Str → List MatchInfo
  | 0, _, _ => []
  | fuel + 1, prev, s =>
    match reMatch re prev s with
    | some r =>
      if r.consumed.isEmpty then
        match s with
        | [] => [⟨r.consumed, r.caps⟩]
        | c :: rest => ⟨r.consumed, r.caps⟩ :: reScanAux re fuel (some c) rest
      else ⟨r.consumed, r.caps⟩ :: reScanAux re fuel (lastPrev prev r.consumed) r.rest
    | none =>
      match s with
      | [] => []
      | c :: rest => reScanAux re fuel (some c) rest

/-- All non-overlapping matches of `re` in `s`, left to right. -/
def reScan (re : RE) (s : Str) : List MatchInfo :=
  reScanAux re (s.length + 1) none s

/-- A case-sensitive literal character. -/
def chC (c : Char) : RE := .pred fun x => x == c

/-- A case-insensitive literal character (`re.I`, ASCII folding). -/
def chI (c : Char) : RE := .pred fun x => x.toLower == c.toLower

/-- A case-sensitive literal string. -/
def litC (s : String) : RE := (str s).foldr (fun c r => .seq (chC c) r) .eps

/-- A case-insensitive literal string. -/
def litI (s : String) : RE := (str s).foldr (fun c r => .seq (chI c) r) .eps

/-- A literal string, case-insensitive when `ci` is true. -/
def lit (ci : Bool) (s : String) : RE := if ci then litI s else litC s

/-- Ordered alternation of a list of branches. -/
def altList (l : List RE) : RE := l.foldr .alt (.pred fun _ => false)

/-- Greedy `+`: one occurrence then a greedy star. -/
def plus (a : RE) : RE := .seq a (.star a)

/-- The `\d` class. -/
def reDigit : RE := .pred Char.isDigit

/-- The `\s` class. -/
def reSpace : RE := .pred Char.isWhitespace

/-- The `.` class (anything but a newline; no `re.DOTALL` in the source). -/
def reDot : RE := .pred fun c => c != '\n'

/-- The `[A-Z0-9]` class under `re.I`: ASCII letters and digits. -/
def reAlnum : RE := .pred fun c => c.isAlpha || c.isDigit

/-!
## The Pattern Library

The `patterns` dict of extraction_config.py lines 5-22, each entry
transliterated from its regex (all compiled with `re.I`).
-/

/-- The eight field names of the Pattern Library. -/
inductive FieldName where
  | material | finish | general_tolerance | surface_roughness
  | threads | diameters | weld_notes | standards
  deriving DecidableEq

open RE in
/-- The compiled patterns, by field.
* material: `\b(STL|Steel|SS\s?(304|316)?|Al(?:uminum)?\s?6061|Brass|Bronze|ABS|PEEK)\b`
* finish: `\b(Anodized|Black Oxide|Powder Coat|Zinc Plated|Hot Dip|Ra\s?\d+(\.\d+)?(\s?(μm|um|microns)?))\b`
* general_tolerance: a literal `±` or plus-slash-minus sign, then `\s?\d+(\.\d+)?(\s?(mm|in|inch)?)`
* surface_roughness: `Ra\s?\d+(\.\d+)?\s?(μm|um|microns)?`
* threads: `\b(M\d+(\.\d+)?(x\d+(\.\d+)?)?|UNC\s?\d+-\d+|UNF\s?\d+-\d+|BSPT|NPT)\b`
* diameters: `(⌀|\bDIA\b)\s?\d+(\.\d+)?`
* weld_notes: `\bWELD(ING)?\b.*`
* standards: `\b(AWS|ASME|ASTM|DIN|SAES|AMSS|ISO)-?[A-Z0-9]+\b` -/
def patterns : FieldName → RE
  | .material =>
    seq wb (seq (group 1 (altList
      [litI "STL", litI "Steel",
       seq (litI "SS") (seq (opt reSpace) (opt (group 2 (alt (litI "304") (litI "316"))))),
       seq (litI "Al") (seq (opt (litI "uminum")) (seq (opt reSpace) (litI "6061"))),
       litI "Brass", litI "Bronze", litI "ABS", litI "PEEK"])) wb)
  | .finish =>
    seq wb (seq (group 1 (altList
      [litI "Anodized", litI "Black Oxide", litI "Powder Coat",
       litI "Zinc Plated", litI "Hot Dip",
       seq (litI "Ra") (seq (opt reSpace) (seq (plus reDigit)
         (seq (opt (group 2 (seq (chC '.') (plus reDigit))))
           (group 3 (seq (opt reSpace)
             (opt (group 4 (altList [litI "μm", litI "um", litI "microns"]))))))))])) wb)
  | .general_tolerance =>
    seq (group 1 (alt (litC "±") (litC "+/-")))
      (seq (opt reSpace) (seq (plus reDigit)
        (seq (opt (group 2 (seq (chC '.') (plus reDigit))))
          (group 3 (seq (opt reSpace)
            (opt (group 4 (altList [litI "mm", litI "in", litI "inch"]))))))))
  | .surface_roughness =>
    seq (litI "Ra") (seq (opt reSpace) (seq (plus reDigit)
      (seq (opt (group 1 (seq (chC '.') (plus reDigit))))
        (seq (opt reSpace)
          (opt (group 2 (altList [litI "μm", litI "um", litI "microns"])))))))
  | .threads =>
    seq wb (seq (group 1 (altList
      [seq (chI 'M') (seq (plus reDigit)
         (seq (opt (group 2 (seq (chC '.') (plus reDigit))))
           (opt (group 3 (seq (chI 'x') (seq (plus reDigit)
             (opt (group 4 (seq (chC '.') (plus reDigit)))))))))),
       seq (litI "UNC") (seq (opt reSpace) (seq (plus reDigit) (seq (chC '-') (plus reDigit)))),
       seq (litI "UNF") (seq (opt reSpace) (seq (plus reDigit) (seq (chC '-') (plus reDigit)))),
       litI "BSPT", litI "NPT"])) wb)
  | .diameters =>
    seq (group 1 (alt (litC "⌀") (seq wb (seq (litI "DIA") wb))))
      (seq (opt reSpace) (seq (plus reDigit)
        (opt (group 2 (seq (chC '.') (plus reDigit))))))
  | .weld_notes =>
    seq wb (seq (litI "WELD") (seq (opt (group 1 (litI "ING"))) (seq wb (star reDot))))
  | .standards =>
    seq wb (seq (group 1 (altList
      [litI "AWS", litI "ASME", litI "ASTM", litI "DIN",
       litI "SAES", litI "AMSS", litI "ISO"]))
      (seq (opt (chC '-')) (seq (plus reAlnum) wb)))

/-!
## Regex pass

streamlit_pmi_extraction.py lines 67-73: for each pattern,
`pattern.findall(text_blob)`; each element is a tuple when the pattern has
two or more groups (the code then takes `match[0]`, the first group) and
the first-group string when it has exactly one, so in both cases the
collected element is capture group 1 (empty when it did not participate);
elements whose upper-casing is `ING` are skipped; the rest are stripped and
added to a per-field set.
-/

/-- The element Python's `findall` yields for one match of a pattern with
capture groups, as the source consumes it: group 1, or `""` when the group
did not participate. -/
def findallElem (m : MatchInfo) : Str := (groupVal m.caps 1).getD []

/-- All `findall` elements of a field's pattern over a text. -/
def findall (f : FieldName) (text : Str) : List Str :=
  (reScan (patterns f) text).map findallElem

/-- The regex pass of streamlit_pmi_extraction.py lines 67-73 for one
field: the set of stripped `findall` elements whose upper-casing is not
`ING`. -/
def regex_extracted (f : FieldName) (text : Str) : Finset Str :=
  (findall f text).foldl
    (fun acc m => if toUpperStr m ≠ str "ING" then insert (pyStrip m) acc else acc) ∅

/-- Modelled from the spec's words, for comparison with `regex_extracted`
(which is the code's behavior): the spec reads "collect all distinct
matched substrings", i.e. the set of full matched substrings of the
pattern, with the same ING filter and stripping. -/
def regex_full_match_set (f : FieldName) (text : Str) : Finset Str :=
  ((reScan (patterns f) text).map MatchInfo.full).foldl
    (fun acc m => if toUpperStr m ≠ str "ING" then insert (pyStrip m) acc else acc) ∅

/-!
## Numeric scanning shared by the diameter and thread classifiers

`re.finditer(r"(\d+(?:\.\d+)?)\s*(mm|in|inch)?", value)` — compiled with
`re.IGNORECASE` in `classify_diameter` (line 29) and without flags in
`classify_thread` (line 52).
-/

/-- The size/unit pattern `(\d+(?:\.\d+)?)\s*(mm|in|inch)?`;
case-insensitive when `ci` is true. -/
def numPat (ci : Bool) : RE :=
  .seq (.group 1 (.seq (plus reDigit) (.opt (.seq (chC '.') (plus reDigit)))))
    (.seq (.star reSpace) (.opt (.group 2 (altList [lit ci "mm", lit ci "in", lit ci "inch"]))))

/-- All `(number text, optional unit text)` pairs `finditer` yields over a
value. -/
def scanNum (ci : Bool) (value : Str) : List (Str × Option Str) :=
  (reScan (numPat ci) value).map fun m => ((groupVal m.caps 1).getD [], groupVal m.caps 2)

/-- Python `float` on a digit string. -/
def parseNat (s : Str) : ℕ := s.foldl (fun acc c => 10 * acc + (c.toNat - 48)) 0

/-- Python `float` on a `\d+(\.\d+)?` literal, as an exact rational. -/
def parseRat (s : Str) : ℚ :=
  match s.span (fun c => c != '.') with
  | (ip, []) => parseNat ip
  | (ip, _ :: fp) => parseNat ip + (parseNat fp : ℚ) / 10 ^ fp.length

/-!
## Diameter and thread classifiers
-/

/-- The converted size of one match in `classify_diameter`: unit defaults
to mm (`match.group(2) or "mm"`), and mm are divided by 25.4 to give
inches. -/
def diam_size (m : Str × Option Str) : ℚ :=
  let size : ℚ := parseRat m.1
  let unit : Str := m.2.getD (str "mm")
  if toLowerStr unit ∈ [str "mm", str "millimeter"] then size / 25.4 else size

/-- `classify_diameter(value)` of extraction_config.py lines 26-46. -/
def classify_diameter (value : Str) : Option (Finset Str) :=
  let classifications :=
    (scanNum true value).foldl (fun acc m =>
      let size := diam_size m
      if 6 ≤ size ∧ size ≤ 8 then insert (str "Class A Pipe") acc
      else if 8 < size ∧ size ≤ 10 then insert (str "Class B Pipe") acc
      else if 10 < size ∧ size ≤ 12 then insert (str "Class C Pipe") acc
      else acc) ∅
  if classifications = ∅ then none else some classifications

/-- The label one diameter match contributes, for stating which bucket a
converted size falls into. -/
def diam_label (m : Str × Option Str) : Option Str :=
  let size := diam_size m
  if 6 ≤ size ∧ size ≤ 8 then some (str "Class A Pipe")
  else if 8 < size ∧ size ≤ 10 then some (str "Class B Pipe")
  else if 10 < size ∧ size ≤ 12 then some (str "Class C Pipe")
  else none

/-- The duty-type alternatives of `re.search(r"(Stud|Anchor|Hole|Bolt)",
value, re.I)`, in the pattern's order. -/
def thread_type_keywords : List Str := [str "Stud", str "Anchor", str "Hole", str "Bolt"]

/-- The leftmost case-insensitive occurrence of a duty-type keyword, first
alternative first at each position; the matched text lower-cased (which is
the lower-cased keyword). -/
def type_search : Str → Option Str
  | [] => none
  | c :: rest =>
    match thread_type_keywords.find? (fun k => decide (toLowerStr k <+: toLowerStr (c :: rest))) with
    | some k => some (toLowerStr k)
    | none => type_search rest

/-- The `thread_type` local of `classify_thread`:
`type_match.group(1).lower() if type_match else "unknown"`. -/
def thread_type (value : Str) : Str := (type_search value).getD (str "unknown")

/-- The converted size of one match in `classify_thread`: unit defaults to
mm, and inches are multiplied by 25.4 to give mm. -/
def thread_size (m : Str × Option Str) : ℚ :=
  let size : ℚ := parseRat m.1
  let unit : Str := m.2.getD (str "mm")
  if unit ∈ [str "in", str "inch"] then size * 25.4 else size

/-- `classify_thread(value)` of extraction_config.py lines 49-81. -/
def classify_thread (value : Str) : Option (Finset Str) :=
  let t := thread_type value
  let classifications :=
    (scanNum false value).foldl (fun acc m =>
      let size := thread_size m
      if t = str "stud" then
        if size ≤ 20 then insert (str "Light Duty Stud") acc
        else insert (str "Heavy Duty Stud") acc
      else if t = str "anchor" then
        if size ≤ 25 then insert (str "Standard Anchor") acc
        else insert (str "Heavy Duty Anchor") acc
      else if t = str "hole" then
        if size ≤ 20 then insert (str "Standard Hole") acc
        else insert (str "Large Hole") acc
      else acc) ∅
  if classifications = ∅ then none else some classifications


/-- The label one thread match contributes given the duty type `t`, for
stating which bucket a converted size falls into. -/
def thread_label (t : Str) (m : Str × Option Str) : Option Str :=
  let size := thread_size m
  if t = str "stud" then
    if size ≤ 20 then some (str "Light Duty Stud") else some (str "Heavy Duty Stud")
  else if t = str "anchor" then
    if size ≤ 25 then some (str "Standard Anchor") else some (str "Heavy Duty Anchor")
  else if t = str "hole" then
    if size ≤ 20 then some (str "Standard Hole") else some (str "Large Hole")
  else none

/-!
## Classification colors

`CLASSIFICATION_COLORS` of extraction_config.py lines 115-136 and the
display lookup `CLASSIFICATION_COLORS.get(classification, "#f8f9fa")` of
streamlit_pmi_extraction.py line 442.
-/

/-- The `CLASSIFICATION_COLORS` dict, as an association list. -/
def CLASSIFICATION_COLORS : List (Str × String) := [
  (str "Class A Pipe", "#FF6B6B"),
  (str "Class B Pipe", "#4ECDC4"),
  (str "Class C Pipe", "#45B7D1"),
  (str "Light Duty Stud", "#98D8AA"),
  (str "Heavy Duty Stud", "#3C6255"),
  (str "Standard Anchor", "#FFD93D"),
  (str "Heavy Duty Anchor", "#FF8400"),
  (str "Standard Hole", "#A8DF8E"),
  (str "Large Hole", "#86A789"),
  (str "Standard Stainless", "#B2B2B2"),
  (str "Marine Grade Stainless", "#7D7C7C"),
  (str "General Stainless", "#9B9B9B"),
  (str "Aircraft Grade Aluminum", "#C0C0C0"),
  (str "General Aluminum", "#D3D3D3"),
  (str "Decorative/Corrosion Resistant", "#DAA520"),
  (str "High Strength/Corrosion Resistant", "#CD7F32"),
  (str "High Performance Plastic", "#E6E6FA")]

/-- `CLASSIFICATION_COLORS.get(classification, "#f8f9fa")` of
streamlit_pmi_extraction.py line 442. -/
def color_of (classification : Str) : String :=
  ((CLASSIFICATION_COLORS.find? (fun p => p.1 == classification)).map Prod.snd).getD "#f8f9fa"

/-- The keys of `CLASSIFICATION_COLORS`. -/
def all_classification_labels : List Str := CLASSIFICATION_COLORS.map Prod.fst

/-!
## Source Locator

`find_text_locations(page, text, context)` of streamlit_pmi_extraction.py
lines 194-235: an exact pass over the page's words returning the first word
whose text contains the snippet case-insensitively; then, only when
`context` is truthy (a non-empty string), a fuzzy pass scoring each word by
how many whitespace-separated snippet parts it contains, keeping the first
strictly-best scorer.
-/

/-- A bounding box `x0/y0/x1/y1` in page coordinates. -/
structure BBox where
  x0 : ℚ
  y0 : ℚ
  x1 : ℚ
  y1 : ℚ
  deriving DecidableEq

/-- One token of `page.extract_words()`: its text and box coordinates. -/
structure PageWord where
  text : Str
  x0 : ℚ
  top : ℚ
  x1 : ℚ
  bottom : ℚ
  deriving DecidableEq

/-- The box the source returns for a word
(`x0/top/x1/bottom` as `x0/y0/x1/y1`). -/
def word_box (w : PageWord) : BBox := ⟨w.x0, w.top, w.x1, w.bottom⟩

/-- Python `str.split()`: the maximal whitespace-free runs. -/
def pySplit (s : Str) : List Str :=
  (s.splitOnP Char.isWhitespace).filter (fun w => !w.isEmpty)

/-- The fuzzy score of one word:
`sum(1 for part in text.split() if part.lower() in word["text"].lower())`. -/
def word_score (snippet : Str) (w : PageWord) : ℕ :=
  (pySplit snippet).countP (fun part => decide (toLowerStr part <:+: toLowerStr w.text))

/-- The fuzzy loop of `find_text_locations`, carrying `best_score` and
`best_match`: a word is considered when some snippet part occurs in it, and
replaces the best match only when its score strictly exceeds the best so
far (ties keep the first). -/
def fuzzy_fold (snippet : Str) : List PageWord → ℕ → Option PageWord → Option PageWord
  | [], _, best => best
  | w :: ws, bs, best =>
    if (pySplit snippet).any (fun part => decide (toLowerStr part <:+: toLowerStr w.text)) then
      if word_score snippet w > bs then fuzzy_fold snippet ws (word_score snippet w) (some w)
      else fuzzy_fold snippet ws bs best
    else fuzzy_fold snippet ws bs best

/-- `find_text_locations` of streamlit_pmi_extraction.py lines 194-235:
exact pass first; the fuzzy pass runs only under `if context:`, so an empty
context string skips it and the function returns `None`. -/
def find_text_locations (words : List PageWord) (text context : Str) : Option BBox :=
  match words.find? (fun w => decide (toLowerStr text <:+: toLowerStr w.text)) with
  | some w => some (word_box w)
  | none =>
    if context = [] then none
    else (fuzzy_fold text words 0 none).map word_box

/-- The highest fuzzy score over a page's words (0 when there are none). -/
def max_word_score (snippet : Str) (words : List PageWord) : ℕ :=
  (words.map (word_score snippet)).foldr max 0

/-!
## LLM passes and the merge call

streamlit_pmi_extraction.py lines 76-148 (`llm_pass`) and 171-191 (the
merge call).  A model-backed call either returns parsed data or raises; the
raising is modelled by `Except String`.  `llm_pass` wraps its call in
try/except and degrades an exception to the dict `{"error": str(e)}`
(`LLMPassValue.error_obj`); the merge call at line 171 is not wrapped, so
its exception propagates out of the whole processing block. -/

/-- What a guarded pass produces: parsed data, or the error object
`{"error": str(e)}`. -/
inductive LLMPassValue (α : Type) where
  | data (d : α)
  | error_obj (msg : String)
  deriving DecidableEq

/-- `llm_pass(prompt_text, name)`: the try/except around the model call. -/
def llm_pass {α : Type} (response : Except String α) : LLMPassValue α :=
  match response with
  | .ok d => .data d
  | .error e => .error_obj e

/-- The three model-derived values the pipeline goes on to render. -/
structure PipelineOutput (α : Type) where
  notes_data : LLMPassValue α
  doc_data : LLMPassValue α
  merged_fields : α
  deriving DecidableEq

/-- The model-call portion of the processing block: `notes_data` and
`doc_data` via `llm_pass`, then the unguarded merge call whose exception
aborts the block. -/
def extract_pipeline {α : Type} (notesResp docResp mergeResp : Except String α) :
    Except String (PipelineOutput α) :=
  let notes_data := llm_pass notesResp
  let doc_data := llm_pass docResp
  match mergeResp with
  | .ok m => .ok ⟨notes_data, doc_data, m⟩
  | .error e => .error e

/-!
## Chat session question cap

streamlit_datasheet_rag.py lines 30-77: session state holds a question
counter starting at 0 and an optional query engine; a prompt with
`question_count >= 15` is rejected with a fixed error message without
querying; otherwise, with an engine present, the query runs and the counter
increments; with no engine a different error is shown and the counter does
not change.
-/

/-- The session state the page keeps: `st.session_state.question_count`
and whether `st.session_state.query_engine` is set. -/
structure ChatState where
  question_count : ℕ
  has_engine : Bool
  deriving DecidableEq

/-- The fixed rejection message of streamlit_datasheet_rag.py line 59. -/
def limit_message : String :=
  "You" ++ String.singleton (Char.ofNat 39) ++
    "ve reached the limit of 15 questions. Please refresh the page to start a new session."

/-- The no-document error message of streamlit_datasheet_rag.py line 77. -/
def upload_first_message : String :=
  "Please upload a document first to ask questions about it."

/-- What the page shows for one prompt. -/
inductive PromptReply where
  | rejected_limit (msg : String)
  | answered
  | rejected_no_document (msg : String)
  deriving DecidableEq

/-- The outcome of one prompt: the next session state, the reply, and
whether the query engine was invoked. -/
structure PromptResult where
  state : ChatState
  reply : PromptReply
  queried : Bool
  deriving DecidableEq

/-- The chat-input handler, streamlit_datasheet_rag.py lines 55-77. -/
def handle_prompt (s : ChatState) : PromptResult :=
  if s.question_count ≥ 15 then ⟨s, .rejected_limit limit_message, false⟩
  else if s.has_engine then ⟨⟨s.question_count + 1, s.has_engine⟩, .answered, true⟩
  else ⟨s, .rejected_no_document upload_first_message, false⟩

/-- The session states reachable from a fresh session: the counter starts
at 0 with no engine; uploading documents sets the engine; each prompt steps
through `handle_prompt`. -/
inductive Reachable : ChatState → Prop where
  | init : Reachable ⟨0, false⟩
  | upload (s : ChatState) : Reachable s → Reachable ⟨s.question_count, true⟩
  | prompt (s : ChatState) : Reachable s → Reachable (handle_prompt s).state

/-!
## Helper lemmas
-/

/-- Uppercasing a string preserves any substring that is already entirely
upper-case (or case-less): mapping `Char.toUpper` over both sides keeps the
infix relation, and the needle is fixed by the map. -/
theorem infix_toUpperStr_of_fixed {needle v : Str}
    (hfix : toUpperStr needle = needle) (h : needle <:+: v) :
    needle <:+: toUpperStr v := by
  have := h.map Char.toUpper
  rwa [show List.map Char.toUpper needle = toUpperStr needle from rfl, hfix] at this

/-- Any value containing BRASS after upper-casing also contains SS, so
`classify_material` takes the stainless branch and yields a stainless
label. -/
theorem material_brass_always_stainless (v : Str)
    (h : str "BRASS" <:+: toUpperStr v) :
    classify_material v = some (str "Standard Stainless") ∨
    classify_material v = some (str "Marine Grade Stainless") ∨
    classify_material v = some (str "General Stainless") := by
  have hss : str "SS" <:+: toUpperStr v :=
    List.IsInfix.trans (by decide : str "SS" <:+: str "BRASS") h
  unfold classify_material
  rw [if_pos (Or.inr hss)]
  by_cases h304 : str "304" <:+: toUpperStr v
  · rw [if_pos h304]; exact Or.inl rfl
  · rw [if_neg h304]
    by_cases h316 : str "316" <:+: toUpperStr v
    · rw [if_pos h316]; exact Or.inr (Or.inl rfl)
    · rw [if_neg h316]; exact Or.inr (Or.inr rfl)

/-- Membership in a left fold that conditionally inserts an element per
list entry. -/
theorem mem_foldl_if_insert (g : Str → Str) (P : Str → Prop) [DecidablePred P]
    (L : List Str) (init : Finset Str) (x : Str) :
    x ∈ L.foldl (fun acc m => if P m then insert (g m) acc else acc) init ↔
      x ∈ init ∨ ∃ m ∈ L, P m ∧ x = g m := by
  induction L generalizing init with
  | nil => simp
  | cons a L ih =>
    by_cases h : P a
    · simp only [List.foldl_cons, if_pos h, ih, Finset.mem_insert, List.mem_cons]
      constructor
      · rintro ((rfl | hin) | ⟨m, hm, hPm, rfl⟩)
        · exact Or.inr ⟨a, Or.inl rfl, h, rfl⟩
        · exact Or.inl hin
        · exact Or.inr ⟨m, Or.inr hm, hPm, rfl⟩
      · rintro (hin | ⟨m, rfl | hm, hPm, rfl⟩)
        · exact Or.inl (Or.inr hin)
        · exact Or.inl (Or.inl rfl)
        · exact Or.inr ⟨m, hm, hPm, rfl⟩
    · simp only [List.foldl_cons, if_neg h, ih, List.mem_cons]
      constructor
      · rintro (hin | ⟨m, hm, hPm, rfl⟩)
        · exact Or.inl hin
        · exact Or.inr ⟨m, Or.inr hm, hPm, rfl⟩
      · rintro (hin | ⟨m, rfl | hm, hPm, rfl⟩)
        · exact Or.inl hin
        · exact absurd hPm h
        · exact Or.inr ⟨m, hm, hPm, rfl⟩

/-- Membership in a left fold that inserts the value of a partial labelling
function per list entry. -/
theorem mem_foldl_option_insert {α : Type} (g : α → Option Str) (L : List α)
    (init : Finset Str) (x : Str) :
    x ∈ L.foldl (fun acc m => match g m with | some l => insert l acc | none => acc) init ↔
      x ∈ init ∨ ∃ m ∈ L, g m = some x := by
  induction L generalizing init with
  | nil => simp
  | cons a L ih =>
    cases h : g a with
    | some l =>
      simp only [List.foldl_cons, h, ih, List.mem_cons, Finset.mem_insert]
      constructor
      · rintro ((rfl | hin) | ⟨m, hm, hgm⟩)
        · exact Or.inr ⟨a, Or.inl rfl, h⟩
        · exact Or.inl hin
        · exact Or.inr ⟨m, Or.inr hm, hgm⟩
      · rintro (hin | ⟨m, rfl | hm, hgm⟩)
        · exact Or.inl (Or.inr hin)
        · rw [h] at hgm
          exact Or.inl (Or.inl (Option.some_inj.mp hgm).symm)
        · exact Or.inr ⟨m, hm, hgm⟩
    | none =>
      simp only [List.foldl_cons, h, ih, List.mem_cons]
      constructor
      · rintro (hin | ⟨m, hm, hgm⟩)
        · exact Or.inl hin
        · exact Or.inr ⟨m, Or.inr hm, hgm⟩
      · rintro (hin | ⟨m, rfl | hm, hgm⟩)
        · exact Or.inl hin
        · rw [h] at hgm; cases hgm
        · exact Or.inr ⟨m, hm, hgm⟩

/-- A fold whose step keeps the accumulator fixed returns its start. -/
theorem foldl_keep {α β : Type _} (f : β → α → β) (L : List α) (init : β)
    (hf : ∀ b a, f b a = b) : L.foldl f init = init := by
  induction L generalizing init with
  | nil => rfl
  | cons a L ih => rw [List.foldl_cons, hf, ih]

/-- The diameter fold's step function, factored through `diam_label`. -/
theorem diam_step_eq :
    (fun (acc : Finset Str) m =>
      let size := diam_size m
      if 6 ≤ size ∧ size ≤ 8 then insert (str "Class A Pipe") acc
      else if 8 < size ∧ size ≤ 10 then insert (str "Class B Pipe") acc
      else if 10 < size ∧ size ≤ 12 then insert (str "Class C Pipe") acc
      else acc)
    = fun acc m => match diam_label m with | some l => insert l acc | none => acc := by
  funext acc m
  simp only [diam_label]
  by_cases h1 : 6 ≤ diam_size m ∧ diam_size m ≤ 8
  · simp [h1]
  · by_cases h2 : 8 < diam_size m ∧ diam_size m ≤ 10
    · simp [h1, h2]
    · by_cases h3 : 10 < diam_size m ∧ diam_size m ≤ 12
      · simp [h1, h2, h3]
      · simp [h1, h2, h3]

/-- A label is in the diameter classification exactly when some scanned
number contributes it. -/
theorem mem_classify_diameter (v x : Str) :
    (∃ S, classify_diameter v = some S ∧ x ∈ S) ↔
      ∃ m ∈ scanNum true v, diam_label m = some x := by
  have hmem := mem_foldl_option_insert diam_label (scanNum true v) ∅ x
  simp only [Finset.not_mem_empty, false_or] at hmem
  simp only [classify_diameter]
  rw [diam_step_eq]
  by_cases hS : List.foldl
      (fun (acc : Finset Str) m =>
        match diam_label m with | some l => insert l acc | none => acc)
      ∅ (scanNum true v) = ∅
  · rw [if_pos hS]
    constructor
    · rintro ⟨S, hSome, _⟩
      cases hSome
    · intro hex
      have hx := hmem.mpr hex
      rw [hS] at hx
      exact absurd hx (Finset.not_mem_empty x)
  · rw [if_neg hS]
    constructor
    · rintro ⟨S, hSome, hx⟩
      cases Option.some_inj.mp hSome
      exact hmem.mp hx
    · intro hex
      exact ⟨_, rfl, hmem.mpr hex⟩

/-- The thread fold's step function, factored through `thread_label`. -/
theorem thread_step_eq (t : Str) :
    (fun (acc : Finset Str) m =>
      let size := thread_size m
      if t = str "stud" then
        if size ≤ 20 then insert (str "Light Duty Stud") acc
        else insert (str "Heavy Duty Stud") acc
      else if t = str "anchor" then
        if size ≤ 25 then insert (str "Standard Anchor") acc
        else insert (str "Heavy Duty Anchor") acc
      else if t = str "hole" then
        if size ≤ 20 then insert (str "Standard Hole") acc
        else insert (str "Large Hole") acc
      else acc)
    = fun acc m => match thread_label t m with | some l => insert l acc | none => acc := by
  funext acc m
  simp only [thread_label]
  split_ifs <;> rfl

/-- A label is in the thread classification exactly when some scanned
number contributes it under the value's duty type. -/
theorem mem_classify_thread (v x : Str) :
    (∃ S, classify_thread v = some S ∧ x ∈ S) ↔
      ∃ m ∈ scanNum false v, thread_label (thread_type v) m = some x := by
  have hmem := mem_foldl_option_insert (thread_label (thread_type v)) (scanNum false v) ∅ x
  simp only [Finset.not_mem_empty, false_or] at hmem
  simp only [classify_thread]
  rw [thread_step_eq]
  by_cases hS : List.foldl
      (fun (acc : Finset Str) m =>
        match thread_label (thread_type v) m with | some l => insert l acc | none => acc)
      ∅ (scanNum false v) = ∅
  · rw [if_pos hS]
    constructor
    · rintro ⟨S, hSome, _⟩
      cases hSome
    · intro hex
      have hx := hmem.mpr hex
      rw [hS] at hx
      exact absurd hx (Finset.not_mem_empty x)
  · rw [if_neg hS]
    constructor
    · rintro ⟨S, hSome, hx⟩
      cases Option.some_inj.mp hSome
      exact hmem.mp hx
    · intro hex
      exact ⟨_, rfl, hmem.mpr hex⟩

/-- Evaluation: the numeral 203 parses to the rational 203. -/
theorem parseRat_203 : parseRat (str "203") = 203 := by
  have hspan : (str "203").span (fun c => c != '.') = (str "203", []) := by decide
  unfold parseRat
  rw [hspan]
  show ((parseNat (str "203") : ℚ)) = 203
  have h : parseNat (str "203") = 203 := by decide
  rw [h]; norm_num

/-- Evaluation: 203 with unit mm converts to 203 / 25.4 inches. -/
theorem diam_size_203mm : diam_size (str "203", some (str "mm")) = 203 / 25.4 := by
  simp only [diam_size]
  rw [if_pos (by decide), parseRat_203]

/-- Evaluation: 203 mm lands in the Class A band. -/
theorem diam_label_203mm :
    diam_label (str "203", some (str "mm")) = some (str "Class A Pipe") := by
  simp only [diam_label]
  rw [diam_size_203mm, if_pos (by norm_num)]

/-- Evaluation: `classify_diameter("203mm")`. -/
theorem classify_diameter_203mm :
    classify_diameter (str "203mm") = some {str "Class A Pipe"} := by
  have hscan : scanNum true (str "203mm") = [(str "203", some (str "mm"))] := by decide
  unfold classify_diameter
  rw [diam_step_eq, hscan]
  simp only [List.foldl, diam_label_203mm]
  rw [if_neg (by decide)]
  rfl

/-- Evaluation: the numeral 8 parses to the rational 8. -/
theorem parseRat_8 : parseRat (str "8") = 8 := by
  have hspan : (str "8").span (fun c => c != '.') = (str "8", []) := by decide
  unfold parseRat
  rw [hspan]
  show ((parseNat (str "8") : ℚ)) = 8
  have h : parseNat (str "8") = 8 := by decide
  rw [h]; norm_num

/-- Evaluation: a bare 8 defaults to mm and converts to 8 / 25.4 inches. -/
theorem diam_size_8 : diam_size (str "8", none) = 8 / 25.4 := by
  simp only [diam_size]
  rw [if_pos (by decide), parseRat_8]

/-- Evaluation: 8 mm (about 0.31 in) lies outside every band. -/
theorem diam_label_8 : diam_label (str "8", none) = none := by
  simp only [diam_label]
  rw [diam_size_8, if_neg (by norm_num), if_neg (by norm_num), if_neg (by norm_num)]

/-- Evaluation: `classify_diameter("8")`. -/
theorem classify_diameter_8 : classify_diameter (str "8") = none := by
  have hscan : scanNum true (str "8") = [(str "8", none)] := by decide
  unfold classify_diameter
  rw [diam_step_eq, hscan]
  simp only [List.foldl, diam_label_8]
  simp

/-- A match whose unit lower-cases to mm converts by dividing by 25.4. -/
theorem diam_size_some (s u : Str) (hu : toLowerStr u = str "mm") :
    diam_size (s, some u) = parseRat s / 25.4 := by
  simp only [diam_size, Option.getD_some]
  rw [hu]
  rw [if_pos (by decide)]

/-- When the value's duty type is none of stud, anchor and hole, every
match contributes nothing and `classify_thread` returns `None`. -/
theorem classify_thread_no_duty (v : Str)
    (h1 : thread_type v ≠ str "stud") (h2 : thread_type v ≠ str "anchor")
    (h3 : thread_type v ≠ str "hole") :
    classify_thread v = none := by
  simp only [classify_thread]
  rw [thread_step_eq]
  have hnone : ∀ m, thread_label (thread_type v) m = none := by
    intro m
    simp only [thread_label]
    rw [if_neg h1, if_neg h2, if_neg h3]
  have hstep : ∀ (b : Finset Str) (a : Str × Option Str),
      (match thread_label (thread_type v) a with | some l => insert l b | none => b) = b := by
    intro b a
    rw [hnone a]
  rw [foldl_keep _ _ _ hstep, if_pos rfl]

/-- `Char.ofNat` of a valid code point has that code point. -/
theorem char_toNat_ofNat_valid {n : ℕ} (h : n.isValidChar) : (Char.ofNat n).toNat = n := by
  unfold Char.ofNat
  rw [dif_pos h]
  rfl

/-- `Char.toLower` is idempotent. -/
theorem char_toLower_toLower (c : Char) : c.toLower.toLower = c.toLower := by
  have hdef : ∀ d : Char,
      d.toLower = if d.toNat ≥ 65 ∧ d.toNat ≤ 90 then Char.ofNat (d.toNat + 32) else d :=
    fun d => rfl
  by_cases h : c.toNat ≥ 65 ∧ c.toNat ≤ 90
  · have hv : (c.toNat + 32).isValidChar := by
      unfold Nat.isValidChar
      omega
    rw [hdef c, if_pos h, hdef _, char_toNat_ofNat_valid hv, if_neg (by omega)]
  · rw [hdef c, if_neg h, hdef c, if_neg h]

/-- Lower-casing a string is idempotent. -/
theorem toLowerStr_idem (s : Str) : toLowerStr (toLowerStr s) = toLowerStr s := by
  simp only [toLowerStr, List.map_map]
  congr 1
  funext c
  exact char_toLower_toLower c

/-- When `type_search` finds a duty type, it is the lower-casing of one of
the four keywords and that keyword occurs case-insensitively in the
value. -/
theorem type_search_sound (v k : Str) (h : type_search v = some k) :
    ∃ kw ∈ thread_type_keywords, k = toLowerStr kw ∧ toLowerStr kw <:+: toLowerStr v := by
  induction v with
  | nil => cases h
  | cons c rest ih =>
    unfold type_search at h
    cases hf : thread_type_keywords.find?
        (fun k => decide (toLowerStr k <+: toLowerStr (c :: rest))) with
    | some kw =>
      rw [hf] at h
      refine ⟨kw, List.mem_of_find?_eq_some hf, (Option.some_inj.mp h).symm, ?_⟩
      have hfind := List.find?_some hf
      have hp : toLowerStr kw <+: toLowerStr (c :: rest) := of_decide_eq_true hfind
      exact hp.isInfix
    | none =>
      rw [hf] at h
      obtain ⟨kw, hkw, hkeq, hinf⟩ := ih h
      refine ⟨kw, hkw, hkeq, ?_⟩
      have hcons : toLowerStr (c :: rest) = c.toLower :: toLowerStr rest := rfl
      rw [hcons]
      exact List.infix_cons hinf

/-- With no duty keyword occurring in the value, the duty type defaults to
unknown. -/
theorem thread_type_default (v : Str)
    (h : ∀ kw ∈ thread_type_keywords, ¬ toLowerStr kw <:+: toLowerStr v) :
    thread_type v = str "unknown" := by
  unfold thread_type
  cases hts : type_search v with
  | none => rfl
  | some k =>
    obtain ⟨kw, hkw, _, hinf⟩ := type_search_sound v k hts
    exact absurd hinf (h kw hkw)

/-- A non-unknown duty type occurs in the lower-cased value. -/
theorem thread_type_occurs (v k : Str) (h : thread_type v = k) (hne : k ≠ str "unknown") :
    k <:+: toLowerStr v := by
  unfold thread_type at h
  cases hts : type_search v with
  | none =>
    rw [hts] at h
    exact absurd h.symm hne
  | some k' =>
    rw [hts] at h
    obtain ⟨kw, hkw, hkeq, hinf⟩ := type_search_sound v k' hts
    rw [← h, hkeq]
    exact hinf

/-- Duty-type search is unchanged by lower-casing the value first. -/
theorem type_search_lower (v : Str) : type_search (toLowerStr v) = type_search v := by
  induction v with
  | nil => rfl
  | cons c rest ih =>
    show type_search (c.toLower :: toLowerStr rest) = type_search (c :: rest)
    unfold type_search
    rw [show toLowerStr (c.toLower :: toLowerStr rest) = toLowerStr (c :: rest) from
      toLowerStr_idem (c :: rest)]
    cases thread_type_keywords.find?
        (fun k => decide (toLowerStr k <+: toLowerStr (c :: rest))) with
    | some kw => rfl
    | none => exact ih

/-- The duty type is case-insensitive in the value. -/
theorem thread_type_lower (v : Str) : thread_type (toLowerStr v) = thread_type v := by
  unfold thread_type
  rw [type_search_lower]

/-- The maximal fuzzy score over a cons. -/
theorem max_word_score_cons (snippet : Str) (w : PageWord) (ws : List PageWord) :
    max_word_score snippet (w :: ws) = max (word_score snippet w) (max_word_score snippet ws) := by
  simp [max_word_score]

/-- The fuzzy loop's guard is redundant: a word no snippet part occurs in
scores 0, which never strictly exceeds the best score, so each step reduces
to the plain strictly-greater comparison. -/
theorem fuzzy_fold_step (snippet : Str) (w : PageWord) (ws : List PageWord)
    (bs : ℕ) (best : Option PageWord) :
    fuzzy_fold snippet (w :: ws) bs best =
      if word_score snippet w > bs then fuzzy_fold snippet ws (word_score snippet w) (some w)
      else fuzzy_fold snippet ws bs best := by
  conv_lhs => rw [fuzzy_fold]
  by_cases hg : (pySplit snippet).any (fun part => decide (toLowerStr part <:+: toLowerStr w.text))
  · rw [if_pos hg]
  · rw [if_neg hg]
    have hs : word_score snippet w = 0 := by
      rw [word_score, List.countP_eq_zero]
      intro part hp
      simp only [List.any_eq_true, not_exists, not_and] at hg
      simp only [decide_eq_true_eq]
      intro hinf
      exact absurd (by simpa using hg part hp) (by simp [hinf])
    rw [hs, if_neg (by omega)]

/-- The fuzzy loop returns the first word attaining the maximal score when
that maximum strictly exceeds the incoming best score, and the incoming
best match otherwise. -/
theorem fuzzy_fold_spec (snippet : Str) (ws : List PageWord) :
    ∀ (bs : ℕ) (best : Option PageWord),
    fuzzy_fold snippet ws bs best =
      if max_word_score snippet ws > bs then
        ws.find? (fun w => word_score snippet w == max_word_score snippet ws)
      else best := by
  induction ws with
  | nil =>
    intro bs best
    simp [fuzzy_fold, max_word_score]
  | cons w ws ih =>
    intro bs best
    rw [fuzzy_fold_step, max_word_score_cons]
    by_cases h : word_score snippet w > bs
    · rw [if_pos h, ih]
      by_cases h2 : max_word_score snippet ws > word_score snippet w
      · rw [if_pos h2, if_pos (by omega)]
        rw [List.find?_cons_of_neg _ (by simp; omega)]
        congr 1
        funext w'
        congr 1
        omega
      · rw [if_neg h2, if_pos (by omega)]
        rw [List.find?_cons_of_pos _ (by simp; omega)]
    · rw [if_neg h, ih]
      by_cases h2 : max_word_score snippet ws > bs
      · rw [if_pos h2, if_pos (by omega)]
        rw [List.find?_cons_of_neg _ (by simp; omega)]
        congr 1
        funext w'
        congr 1
        omega
      · rw [if_neg h2, if_neg (by omega)]

/-- A positive maximal score is attained by some word. -/
theorem max_word_score_attained (snippet : Str) (words : List PageWord)
    (h : 0 < max_word_score snippet words) :
    ∃ w ∈ words, word_score snippet w = max_word_score snippet words := by
  induction words with
  | nil => simp [max_word_score] at h
  | cons w ws ih =>
    rw [max_word_score_cons] at h ⊢
    by_cases h2 : max_word_score snippet ws ≤ word_score snippet w
    · exact ⟨w, List.mem_cons_self w ws, by omega⟩
    · have hpos : 0 < max_word_score snippet ws := by omega
      obtain ⟨w', hw', hsc⟩ := ih hpos
      exact ⟨w', List.mem_cons_of_mem w hw', by omega⟩

/-- Every key of the color table is found by the lookup, with a color
different from the fallback. -/
theorem all_labels_colored : ∀ l ∈ all_classification_labels,
    (CLASSIFICATION_COLORS.find? (fun p => p.1 == l)).isSome = true ∧
    color_of l ≠ "#f8f9fa" := by decide

/-- Every diameter label is a color key. -/
theorem diam_label_range (m : Str × Option Str) (l : Str) (h : diam_label m = some l) :
    l ∈ all_classification_labels := by
  simp only [diam_label] at h
  split_ifs at h
  · exact Option.some_inj.mp h ▸ (by decide)
  · exact Option.some_inj.mp h ▸ (by decide)
  · exact Option.some_inj.mp h ▸ (by decide)

/-- Every thread label is a color key. -/
theorem thread_label_range (t : Str) (m : Str × Option Str) (l : Str)
    (h : thread_label t m = some l) :
    l ∈ all_classification_labels := by
  simp only [thread_label] at h
  split_ifs at h <;> exact Option.some_inj.mp h ▸ (by decide)

/-- Every material label is a color key. -/
theorem classify_material_range (v l : Str) (h : classify_material v = some l) :
    l ∈ all_classification_labels := by
  simp only [classify_material] at h
  split_ifs at h <;> exact Option.some_inj.mp h ▸ (by decide)

/-!
## The claims
-/

/-- Claim C1, counterexample: on the text `±0.5mm` the general_tolerance
pattern has one match whose full matched substring is `±0.5mm`, but the
regex pass collects the first capture group `±` — `findall` returns group
tuples for patterns with capture groups and the code takes `match[0]` —
so the collected set differs from the set of full matched substrings. -/
theorem c1_counterexample :
    regex_extracted .general_tolerance (str "±0.5mm") = {str "±"} ∧
    regex_full_match_set .general_tolerance (str "±0.5mm") = {str "±0.5mm"} ∧
    regex_extracted .general_tolerance (str "±0.5mm") ≠
      regex_full_match_set .general_tolerance (str "±0.5mm") := by decide

/-- Claim C1 (amended): for every Pattern Library field and every text, the
regex pass collects exactly the set of stripped first-capture-group
fragments of the pattern's matches (the empty string when the group did not
participate; the full match only for the patterns whose group 1 spans the
whole match), with elements upper-casing to ING filtered out. -/
theorem c1_regex_pass_first_groups (f : FieldName) (text x : Str) :
    x ∈ regex_extracted f text ↔
      ∃ m ∈ reScan (patterns f) text,
        toUpperStr (findallElem m) ≠ str "ING" ∧ x = pyStrip (findallElem m) := by
  unfold regex_extracted
  rw [mem_foldl_if_insert pyStrip (fun m => toUpperStr m ≠ str "ING") (findall f text) ∅ x]
  simp only [Finset.not_mem_empty, false_or]
  unfold findall
  constructor
  · rintro ⟨m, hm, hP, rfl⟩
    obtain ⟨mi, hmi, rfl⟩ := List.mem_map.mp hm
    exact ⟨mi, hmi, hP, rfl⟩
  · rintro ⟨mi, hmi, hP, rfl⟩
    exact ⟨findallElem mi, List.mem_map.mpr ⟨mi, hmi, rfl⟩, hP, rfl⟩

/-- Claim C2, counterexample: an exception in the merge call is not
captured as an error object — the pipeline aborts with the exception
instead of continuing. -/
theorem c2_counterexample :
    extract_pipeline (α := Unit) (Except.ok ()) (Except.ok ()) (Except.error "merge boom") =
      Except.error "merge boom" ∧
    (∃ out, extract_pipeline (α := Unit) (Except.ok ()) (Except.ok ())
      (Except.error "merge boom") = Except.ok out) = False := by
  refine ⟨rfl, eq_false ?_⟩
  rintro ⟨out, h⟩
  cases h

/-- Claim C2 (amended): a failure of either guarded pass (full-document or
notes) degrades to the explicit error object and the pipeline continues to
the merge call; the merge call itself is unguarded, so its exception aborts
the pipeline instead of degrading to an error value. -/
theorem c2_pipeline_error_capture {α : Type} (notesResp docResp : Except String α)
    (e : String) (m : α) :
    llm_pass (α := α) (Except.error e) = LLMPassValue.error_obj e ∧
    extract_pipeline notesResp docResp (Except.ok m) =
      Except.ok ⟨llm_pass notesResp, llm_pass docResp, m⟩ ∧
    extract_pipeline notesResp docResp (Except.error e) = Except.error e :=
  ⟨rfl, rfl, rfl⟩

/-- Claim C3: the claim states that an input containing the keyword brass
and no stainless or aluminum keyword is classified
Decorative/Corrosion Resistant, in particular `classify_material("Brass")`.
The code disagrees: BRASS contains the stainless keyword SS as a substring,
so every brass-bearing value takes the stainless branch first;
`classify_material("Brass")` evaluates to General Stainless, and the brass
label is unreachable for any value containing brass. -/
theorem c3_classify_material_brass :
    classify_material (str "Brass") = some (str "General Stainless") ∧
    (classify_material (str "Brass")
        = some (str "Decorative/Corrosion Resistant")) = False ∧
    ∀ v : Str, str "BRASS" <:+: toUpperStr v →
      classify_material v = some (str "Standard Stainless") ∨
      classify_material v = some (str "Marine Grade Stainless") ∨
      classify_material v = some (str "General Stainless") := by
  exact ⟨by decide, eq_false (by decide), material_brass_always_stainless⟩

/-- Claim C4, counterexample: with a single page token `M8x1.25`, snippet
`M8 bolt` and the empty context, the exact pass finds nothing and the
snippet word `M8` gives the token a positive fuzzy score, yet
`find_text_locations` returns `None`: the fuzzy pass is gated on
`if context:` and does not run for an empty context. -/
theorem c4_counterexample :
    find_text_locations [⟨str "M8x1.25", 0, 0, 0, 0⟩] (str "M8 bolt") [] = none ∧
    word_score (str "M8 bolt") ⟨str "M8x1.25", 0, 0, 0, 0⟩ = 1 ∧
    ([⟨str "M8x1.25", 0, 0, 0, 0⟩] : List PageWord).find?
      (fun w => decide (toLowerStr (str "M8 bolt") <:+: toLowerStr w.text)) = none := by decide

/-- Claim C4 (amended): whenever the exact pass finds no token and the
context is non-empty, the fuzzy fallback runs and returns the box of the
first highest-scoring token provided some token scores above zero. -/
theorem c4_fuzzy_fallback (words : List PageWord) (text context : Str)
    (hexact : words.find? (fun w => decide (toLowerStr text <:+: toLowerStr w.text)) = none)
    (hctx : context ≠ [])
    (hpos : 0 < max_word_score text words) :
    ∃ w, words.find? (fun w => word_score text w == max_word_score text words) = some w ∧
      find_text_locations words text context = some (word_box w) ∧
      word_score text w = max_word_score text words := by
  obtain ⟨wm, hwm, hsc⟩ := max_word_score_attained text words hpos
  have hfind : (words.find? fun w => word_score text w == max_word_score text words).isSome := by
    rw [Option.isSome_iff_ne_none]
    intro hnone
    rw [List.find?_eq_none] at hnone
    exact absurd (by simp [hsc] : (fun w => word_score text w == max_word_score text words) wm = true)
      (by simpa using hnone wm hwm)
  obtain ⟨w, hw⟩ := Option.isSome_iff_exists.mp hfind
  refine ⟨w, hw, ?_, ?_⟩
  · unfold find_text_locations
    rw [hexact, if_neg hctx, fuzzy_fold_spec, if_pos hpos, hw]
    rfl
  · have := List.find?_some hw
    simpa using this

/-- Claim C4 witness: the amended theorem at one token `M8x1.25`, snippet
`M8 bolt` and the non-empty context `note`. -/
theorem c4_witness :
    ∃ w, ([⟨str "M8x1.25", 0, 0, 0, 0⟩] : List PageWord).find?
        (fun w => word_score (str "M8 bolt") w ==
          max_word_score (str "M8 bolt") [⟨str "M8x1.25", 0, 0, 0, 0⟩]) = some w ∧
      find_text_locations [⟨str "M8x1.25", 0, 0, 0, 0⟩] (str "M8 bolt") (str "note") =
        some (word_box w) ∧
      word_score (str "M8 bolt") w =
        max_word_score (str "M8 bolt") [⟨str "M8x1.25", 0, 0, 0, 0⟩] :=
  c4_fuzzy_fallback [⟨str "M8x1.25", 0, 0, 0, 0⟩] (str "M8 bolt") (str "note")
    (by decide) (by decide) (by decide)

/-- Claim C5, counterexample: `STAINLESS 304 316` contains both STAINLESS
and 316 yet is classified Standard Stainless (the 304 test runs first),
not Marine Grade Stainless as the claim requires. -/
theorem c5_counterexample :
    str "STAINLESS" <:+: str "STAINLESS 304 316" ∧
    str "316" <:+: str "STAINLESS 304 316" ∧
    classify_material (str "STAINLESS 304 316") = some (str "Standard Stainless") ∧
    (classify_material (str "STAINLESS 304 316")
        = some (str "Marine Grade Stainless")) = False := by
  exact ⟨by decide, by decide, by decide, eq_false (by decide)⟩

/-- Claim C5 (amended): a value containing STAINLESS and 316 as substrings
whose upper-casing does not also contain 304 is classified exactly
Marine Grade Stainless. -/
theorem c5_stainless_316 (v : Str)
    (h1 : str "STAINLESS" <:+: v) (h2 : str "316" <:+: v)
    (h3 : ¬ str "304" <:+: toUpperStr v) :
    classify_material v = some (str "Marine Grade Stainless") := by
  have h1u : str "STAINLESS" <:+: toUpperStr v :=
    infix_toUpperStr_of_fixed (by decide) h1
  have h2u : str "316" <:+: toUpperStr v :=
    infix_toUpperStr_of_fixed (by decide) h2
  unfold classify_material
  rw [if_pos (Or.inl h1u), if_neg h3, if_pos h2u]

/-- Claim C5 witness: the amended theorem applied at `STAINLESS 316`. -/
theorem c5_witness :
    classify_material (str "STAINLESS 316") = some (str "Marine Grade Stainless") :=
  c5_stainless_316 (str "STAINLESS 316") (by decide) (by decide) (by decide)

/-- Claim C6: every scanned number with unit mm is divided by 25.4 and
bucketed with inclusive lower bounds into the Class A / B / C bands
(contributing the band's label to the classification set), a number
outside every band contributes nothing, and in particular
`classify_diameter("203mm")` is exactly the Class A Pipe singleton. -/
theorem c6_diameter_bands (v s u : Str)
    (hm : (s, some u) ∈ scanNum true v) (hu : toLowerStr u = str "mm") :
    diam_size (s, some u) = parseRat s / 25.4 ∧
    ((6 ≤ parseRat s / 25.4 ∧ parseRat s / 25.4 ≤ 8) →
      ∃ S, classify_diameter v = some S ∧ str "Class A Pipe" ∈ S) ∧
    ((8 < parseRat s / 25.4 ∧ parseRat s / 25.4 ≤ 10) →
      ∃ S, classify_diameter v = some S ∧ str "Class B Pipe" ∈ S) ∧
    ((10 < parseRat s / 25.4 ∧ parseRat s / 25.4 ≤ 12) →
      ∃ S, classify_diameter v = some S ∧ str "Class C Pipe" ∈ S) ∧
    (¬(6 ≤ parseRat s / 25.4 ∧ parseRat s / 25.4 ≤ 8) →
      ¬(8 < parseRat s / 25.4 ∧ parseRat s / 25.4 ≤ 10) →
      ¬(10 < parseRat s / 25.4 ∧ parseRat s / 25.4 ≤ 12) →
      diam_label (s, some u) = none) ∧
    classify_diameter (str "203mm") = some {str "Class A Pipe"} := by
  have hsize := diam_size_some s u hu
  refine ⟨hsize, ?_, ?_, ?_, ?_, classify_diameter_203mm⟩
  · intro hband
    refine (mem_classify_diameter v _).mpr ⟨(s, some u), hm, ?_⟩
    simp only [diam_label]
    rw [hsize, if_pos hband]
  · intro hband
    refine (mem_classify_diameter v _).mpr ⟨(s, some u), hm, ?_⟩
    simp only [diam_label]
    rw [hsize, if_neg (fun hb => absurd hb.2 (not_le.mpr hband.1)), if_pos hband]
  · intro hband
    refine (mem_classify_diameter v _).mpr ⟨(s, some u), hm, ?_⟩
    simp only [diam_label]
    rw [hsize, if_neg (fun hb => by linarith [hb.2, hband.1]),
      if_neg (fun hb => by linarith [hb.2, hband.1]), if_pos hband]
  · intro hb1 hb2 hb3
    simp only [diam_label]
    rw [hsize, if_neg hb1, if_neg hb2, if_neg hb3]

/-- Claim C6 witness: the theorem at `203mm`, whose single scanned number
203 with unit mm lands in the inclusive Class A band. -/
theorem c6_witness :
    ∃ S, classify_diameter (str "203mm") = some S ∧ str "Class A Pipe" ∈ S :=
  ((c6_diameter_bands (str "203mm") (str "203") (str "mm") (by decide) (by decide)).2.1)
    (by rw [parseRat_203]; norm_num)

/-- Claim C7: in every reachable chat-session state the accepted-question
counter is at most 15, and at 15 a prompt leaves the state (hence the
counter) unchanged, replies with the fixed limit message and does not
invoke the query engine. -/
theorem c7_question_cap (s : ChatState) (h : Reachable s) :
    s.question_count ≤ 15 ∧
    (s.question_count = 15 →
      handle_prompt s = ⟨s, .rejected_limit limit_message, false⟩) := by
  constructor
  · induction h with
    | init => exact Nat.zero_le 15
    | upload s hs ih => exact ih
    | prompt s hs ih =>
      unfold handle_prompt
      by_cases h15 : s.question_count ≥ 15
      · rw [if_pos h15]
        exact ih
      · rw [if_neg h15]
        by_cases he : s.has_engine = true
        · simp only [he, if_true]
          show s.question_count + 1 ≤ 15
          omega
        · simp only [he, if_false]
          exact ih
  · intro h15
    unfold handle_prompt
    rw [if_pos (by omega)]

/-- Claim C7 witness: the theorem at the fresh session state. -/
theorem c7_witness :
    (⟨0, false⟩ : ChatState).question_count ≤ 15 ∧
    ((⟨0, false⟩ : ChatState).question_count = 15 →
      handle_prompt ⟨0, false⟩ = ⟨⟨0, false⟩, .rejected_limit limit_message, false⟩) :=
  c7_question_cap ⟨0, false⟩ Reachable.init

/-- Claim C8, counterexample: `Bolt` contains none of the claim's duty-type
keywords stud, anchor and hole, yet the duty type is `bolt`, not the
claimed default `unknown` — the type regex also matches Bolt. -/
theorem c8_counterexample :
    thread_type (str "Bolt") = str "bolt" ∧
    thread_type (str "Bolt") ≠ str "unknown" ∧
    ¬ str "stud" <:+: toLowerStr (str "Bolt") ∧
    ¬ str "anchor" <:+: toLowerStr (str "Bolt") ∧
    ¬ str "hole" <:+: toLowerStr (str "Bolt") := by decide

/-- Claim C8 (amended): duty-type extraction is case-insensitive; when none
of stud, anchor and hole occurs in the value (case-insensitively), the duty
type is `unknown` unless the fourth pattern keyword bolt occurs (then it is
`bolt`), and in either case `classify_thread` returns no classification;
in particular `classify_thread("M8x1.25")` is `None`. -/
theorem c8_thread_duty_default (v : Str)
    (h1 : ¬ str "stud" <:+: toLowerStr v)
    (h2 : ¬ str "anchor" <:+: toLowerStr v)
    (h3 : ¬ str "hole" <:+: toLowerStr v) :
    thread_type (toLowerStr v) = thread_type v ∧
    (¬ str "bolt" <:+: toLowerStr v → thread_type v = str "unknown") ∧
    classify_thread v = none ∧
    classify_thread (str "M8x1.25") = none := by
  refine ⟨thread_type_lower v, ?_, ?_, by decide⟩
  · intro h4
    apply thread_type_default
    intro kw hkw
    simp only [thread_type_keywords, List.mem_cons, List.not_mem_nil, or_false] at hkw
    rcases hkw with rfl | rfl | rfl | rfl
    · rw [show toLowerStr (str "Stud") = str "stud" from by decide]; exact h1
    · rw [show toLowerStr (str "Anchor") = str "anchor" from by decide]; exact h2
    · rw [show toLowerStr (str "Hole") = str "hole" from by decide]; exact h3
    · rw [show toLowerStr (str "Bolt") = str "bolt" from by decide]; exact h4
  · apply classify_thread_no_duty
    · intro he; exact h1 (thread_type_occurs v _ he (by decide))
    · intro he; exact h2 (thread_type_occurs v _ he (by decide))
    · intro he; exact h3 (thread_type_occurs v _ he (by decide))

/-- Claim C8 witness: the amended theorem at `M8x1.25`, which contains no
duty keyword. -/
theorem c8_witness :
    thread_type (toLowerStr (str "M8x1.25")) = thread_type (str "M8x1.25") ∧
    (¬ str "bolt" <:+: toLowerStr (str "M8x1.25") →
      thread_type (str "M8x1.25") = str "unknown") ∧
    classify_thread (str "M8x1.25") = none ∧
    classify_thread (str "M8x1.25") = none :=
  c8_thread_duty_default (str "M8x1.25") (by decide) (by decide) (by decide)

/-- Claim C9: a scanned number with no unit is treated as millimeters in
both classifiers — `classify_diameter` divides it by 25.4 before
bucketing, `classify_thread` compares it to its millimeter thresholds
unconverted — and in particular `classify_diameter("8")` is `None`, since
8 mm is about 0.31 in and lies outside every band. -/
theorem c9_unitless_default_mm (s : Str) :
    diam_size (s, none) = parseRat s / 25.4 ∧
    thread_size (s, none) = parseRat s ∧
    classify_diameter (str "8") = none := by
  refine ⟨?_, ?_, classify_diameter_8⟩
  · simp only [diam_size, Option.getD_none]
    rw [if_pos (by decide)]
  · simp only [thread_size, Option.getD_none]
    rw [if_neg (by decide)]

/-- Claim C10: every label any of the three classifiers can produce is a
key of the color table, so the display lookup never falls back to the
default color for a classifier-produced label. -/
theorem c10_labels_colored (v l : Str)
    (h : (∃ S, classify_diameter v = some S ∧ l ∈ S) ∨
         (∃ S, classify_thread v = some S ∧ l ∈ S) ∨
         classify_material v = some l) :
    (CLASSIFICATION_COLORS.find? (fun p => p.1 == l)).isSome = true ∧
    color_of l ≠ "#f8f9fa" := by
  apply all_labels_colored
  rcases h with hd | ht | hm
  · obtain ⟨m, _, hlab⟩ := (mem_classify_diameter v l).mp hd
    exact diam_label_range m l hlab
  · obtain ⟨m, _, hlab⟩ := (mem_classify_thread v l).mp ht
    exact thread_label_range (thread_type v) m l hlab
  · exact classify_material_range v l hm

/-- Claim C10 witness: the theorem at the PEEK material label. -/
theorem c10_witness :
    (CLASSIFICATION_COLORS.find? (fun p => p.1 == str "High Performance Plastic")).isSome = true ∧
    color_of (str "High Performance Plastic") ≠ "#f8f9fa" :=
  c10_labels_colored (str "PEEK") (str "High Performance Plastic") (Or.inr (Or.inr (by decide)))
